import Mathlib

/-!
# Verification of the board post/comment deletion and listing services

Shallow embedding of `service/board/delete_post.py` (DeletePostService,
DeleteCommentService, ListDeleteService) and `service/board/list_post.py`
(ListPostService) of the g6 bulletin-board backend, together with proofs of
the testable properties stated in the specification.

Rows of a per-board write table are `Write` records; the board aggregate is
`Board`; the persistent state visible to the deletion engines (write rows,
recency index, scraps, points ledger) plus the log of external calls
(save_point, delete_point, file deletion, cache invalidation, commits) is
`State`.  External collaborators that are not part of the repository sources
(points ledger, is_owner, write_search_filter, set_board_notice and the
router orchestration) are modelled from the specification and marked as such.
-/

/-- A row of a per-board write table (`WriteBaseModel`): posts and comments
share this shape, distinguished by `wr_is_comment`. -/
structure Write where
  wr_id : Nat
  wr_parent : Nat
  wr_is_comment : Bool
  wr_num : Int
  wr_reply : String
  wr_comment : Int
  wr_comment_reply : String
  mb_id : String
  wr_option : String
  wr_content : String
  deriving DecidableEq, Repr

/-- The board aggregate row: counters, notice list, point configuration. -/
structure Board where
  bo_table : String
  bo_subject : String
  bo_count_write : Int
  bo_count_comment : Int
  bo_notice : List Nat
  bo_write_point : Int
  bo_comment_point : Int
  deriving DecidableEq, Repr

/-- A row of the cross-board recency index (`BoardNew`). -/
structure BoardNewEntry where
  bo_table : String
  wr_id : Nat
  wr_parent : Nat
  deriving DecidableEq, Repr

/-- A scrap (bookmark) row. -/
structure ScrapEntry where
  bo_table : String
  wr_id : Nat
  mb_id : String
  deriving DecidableEq, Repr

/-- A points-ledger entry, keyed by (actor, board, post id, reason tag). -/
structure LedgerEntry where
  mb_id : String
  bo_table : String
  wr_id : Nat
  reason : String
  deriving DecidableEq, Repr

/-- A positional argument of a `save_point` call.  `Arg.request` records the
FastAPI `Request` object being passed as a positional argument. -/
inductive Arg where
  | request
  | str (s : String)
  | int (i : Int)
  deriving DecidableEq, Repr

/-- The persistent state seen by the deletion engines, together with an audit
log of external effects: `savePointCalls` and `deletePointCalls` record the
calls made to the points service, `deletedFiles` the attachment deletions,
`cacheInvalidations` the cache key invalidations, `commits` the number of
transaction commits. -/
structure State where
  writes : List Write
  board : Board
  boardNew : List BoardNewEntry
  scraps : List ScrapEntry
  ledger : List LedgerEntry
  savePointCalls : List (List Arg)
  deletePointCalls : List LedgerEntry
  deletedFiles : List (String × Nat)
  cacheInvalidations : List String
  commits : Nat
  deriving DecidableEq, Repr

/-- Key match for a ledger entry. -/
def ledgerMatch (e : LedgerEntry) (mb bo : String) (w : Nat) (rs : String) : Bool :=
  e.mb_id == mb && e.bo_table == bo && e.wr_id == w && e.reason == rs

/-- Modelled from the spec: the Points Ledger collaborator
`delete_point(actor, board, post_id, reason) -> bool` returns whether a
matching entry existed (and removes it); the implementation is outside the
repository sources. -/
def delete_point (ledger : List LedgerEntry) (mb bo : String) (w : Nat) (rs : String) :
    Bool × List LedgerEntry :=
  (ledger.any (fun e => ledgerMatch e mb bo w rs),
   ledger.filter (fun e => !(ledgerMatch e mb bo w rs)))

/-- Modelled from the spec: `is_owner` from `lib.board_lib` — the row's author
equals the acting member; an anonymous row (empty `mb_id`) has no owner. -/
def is_owner (w : Write) (mb_id : String) : Bool :=
  w.mb_id != "" && w.mb_id == mb_id

/-- Modelled from the spec: `BoardService.set_board_notice(wr_id, False)` —
remove the post id from the board's notice list. -/
def set_board_notice (bo_notice : List Nat) (wr_id : Nat) : List Nat :=
  bo_notice.filter (fun n => !(n == wr_id))

/-- Memo string of the post-deletion `save_point` call
(`f"{board.bo_subject} {self.wr_id} 글 삭제"`). -/
def writeMemo (board : Board) (wr_id : Nat) : String :=
  board.bo_subject ++ " " ++ toString wr_id ++ " 글 삭제"

/-- Memo string of the comment-deletion `save_point` call
(`f"{board.bo_subject} {self.wr_id} 댓글 삭제"`). -/
def commentMemo (board : Board) (wr_id : Nat) : String :=
  board.bo_subject ++ " " ++ toString wr_id ++ " 댓글 삭제"

/-! ## Listing/search engine: partition window (`ListPostService.get_query`) -/

/-- The window restriction applied by `get_query` when a search is active:
`self.query.where(self.write_model.wr_num.between(spt, spt + search_part))`.
SQL `BETWEEN` is inclusive at both endpoints. -/
def wrNumInSearchWindow (spt search_part wr_num : Int) : Bool :=
  spt ≤ wr_num && wr_num ≤ spt + search_part

/-- The effective partition width: `int(self.config.cf_search_part) or 10000`
(Python `or` replaces a zero width by the default 10000). -/
def effectiveSearchPart (cf_search_part : Int) : Int :=
  if cf_search_part == 0 then 10000 else cf_search_part

/-- The rows of the store matched by the active search inside the partition
window (the query built by `get_query` before the parent-id subquery step);
the free-text/category filter `write_search_filter` from `lib.board_lib` is
not in the repository sources and is modelled from the spec as an abstract
row predicate `hits`. -/
def search_window_rows (hits : Write → Bool) (spt search_part : Int)
    (store : List Write) : List Write :=
  store.filter (fun w => hits w && wrNumInSearchWindow spt search_part w.wr_num)

/-- The distinct `wr_parent` values of the matching rows (the subquery built
at line 89 of `list_post.py`). -/
def search_parent_ids (hits : Write → Bool) (spt search_part : Int)
    (store : List Write) : List Nat :=
  ((search_window_rows hits spt search_part store).map (fun w => w.wr_parent)).dedup

/-- The final result set of `get_query` for an active search:
`select().where(self.write_model.wr_id.in_(subquery))` — all rows whose
`wr_id` occurs among the parent ids of the matching rows. -/
def search_result (hits : Write → Bool) (spt search_part : Int)
    (store : List Write) : List Write :=
  store.filter (fun w => (search_parent_ids hits spt search_part store).contains w.wr_id)

/-! ## Post deletion engine (`DeletePostService`) -/

/-- The acting member (viewer). -/
structure Member where
  mb_id : String
  admin_type : String
  level : Int
  deriving DecidableEq, Repr

/-- Insertion of a row into a list sorted by ascending `wr_id`. -/
def insertByWrId (w : Write) : List Write → List Write
  | [] => [w]
  | v :: vs => if w.wr_id ≤ v.wr_id then w :: v :: vs else v :: insertByWrId w vs

/-- Sorting by ascending `wr_id` (the `order_by(write_model.wr_id)` of
`delete_write`). -/
def sortByWrId : List Write → List Write
  | [] => []
  | w :: ws => insertByWrId w (sortByWrId ws)

/-- One iteration of the loop of `DeletePostService.delete_write` over the rows
with `wr_parent == self.wr_id`, threading the state and the two counters
`delete_write_count` and `delete_comment_count`.  For a top-level row the code
reverses the authoring ledger entry (reason "쓰기"), on a missed reversal calls
`save_point(write.mb_id, board.bo_write_point * (-1), memo)`, and deletes the
attached files; for a comment row it reverses with reason "댓글" and on a missed
reversal calls `save_point(self.request, write.mb_id,
board.bo_comment_point * (-1), memo)` — the `Request` object is the first
positional argument of that call, recorded here as `Arg.request`.  All point
and file calls use `self.wr_id` (the deletion target), not `write.wr_id`. -/
def delete_write_step (bo_table : String) (wr_id : Nat) (board : Board)
    (acc : State × Nat × Nat) (w : Write) : State × Nat × Nat :=
  let st := acc.1
  let wc := acc.2.1
  let cc := acc.2.2
  if !w.wr_is_comment then
    let dp := delete_point st.ledger w.mb_id bo_table wr_id "쓰기"
    let st1 := { st with
      ledger := dp.2
      deletePointCalls := st.deletePointCalls ++ [({ mb_id := w.mb_id, bo_table := bo_table, wr_id := wr_id, reason := "쓰기" } : LedgerEntry)] }
    let st2 := if !dp.1 then
        { st1 with savePointCalls := st1.savePointCalls ++
            [[Arg.str w.mb_id, Arg.int (board.bo_write_point * (-1)),
              Arg.str (writeMemo board wr_id)]] }
      else st1
    let st3 := { st2 with deletedFiles := st2.deletedFiles ++ [(board.bo_table, wr_id)] }
    (st3, wc + 1, cc)
  else
    let dp := delete_point st.ledger w.mb_id bo_table wr_id "댓글"
    let st1 := { st with
      ledger := dp.2
      deletePointCalls := st.deletePointCalls ++ [({ mb_id := w.mb_id, bo_table := bo_table, wr_id := wr_id, reason := "댓글" } : LedgerEntry)] }
    let st2 := if !dp.1 then
        { st1 with savePointCalls := st1.savePointCalls ++
            [[Arg.request, Arg.str w.mb_id, Arg.int (board.bo_comment_point * (-1)),
              Arg.str (commentMemo board wr_id)]] }
      else st1
    (st2, wc, cc + 1)

/-- `DeletePostService.delete_write`: load the rows with
`wr_parent == self.wr_id` ordered by `wr_id`, run the point/file loop, then
bulk-delete those rows, delete the recency-index rows and scraps, remove the
notice flag, decrement the board counters by the accumulated counts, commit
once, and invalidate the `latest-{bo_table}` cache keys. -/
def delete_write (bo_table : String) (wr_id : Nat) (st : State) : State :=
  let board := st.board
  let writes := sortByWrId (st.writes.filter (fun w => w.wr_parent == wr_id))
  let r := writes.foldl (delete_write_step bo_table wr_id board) (st, 0, 0)
  let st1 := r.1
  { st1 with
    writes := st1.writes.filter (fun w => !(w.wr_parent == wr_id)),
    boardNew := st1.boardNew.filter
      (fun e => !(e.bo_table == bo_table && e.wr_parent == wr_id)),
    scraps := st1.scraps.filter
      (fun e => !(e.bo_table == bo_table && e.wr_id == wr_id)),
    board := { board with
      bo_notice := set_board_notice board.bo_notice wr_id,
      bo_count_write := board.bo_count_write - (r.2.1 : Int),
      bo_count_comment := board.bo_count_comment - (r.2.2 : Int) },
    commits := st1.commits + 1,
    cacheInvalidations := st1.cacheInvalidations ++ ["latest-" ++ bo_table] }

/-- `DeletePostService.validate_level`: `some 403` means the check raises a
PermissionDenied exception; `none` means the check passes.  `wml` is the
posting member's level (`self.write_member_level`), `has_grant` the session
flag `ss_delete_{bo_table}_{wr_id}`. -/
def validate_level (write : Write) (member : Member) (wml : Int)
    (with_session has_grant : Bool) : Option Nat :=
  if member.admin_type == "super" then none
  else if member.admin_type != "" && decide (wml > member.level) then some 403
  else if write.mb_id != "" && !(is_owner write member.mb_id) then some 403
  else if write.mb_id == "" && with_session && !has_grant then some 403
  else if write.mb_id == "" && !with_session then some 403
  else none

/-- `DeletePostService.validate_exists_reply`: a reply post exists when some
other row has `wr_reply` starting with the post's `wr_reply`, the same
`wr_num`, `wr_is_comment == 0`, and a different `wr_id`. -/
def exists_reply (store : List Write) (write : Write) : Bool :=
  store.any (fun w =>
    write.wr_reply.toList.isPrefixOf w.wr_reply.toList && w.wr_num == write.wr_num &&
    w.wr_is_comment == false && w.wr_id != write.wr_id)

/-- Modelled from the spec: `BoardService.get_write` loads the row by id
(NotFound when absent); the BoardService base class is outside src. -/
def get_write (store : List Write) (wr_id : Nat) : Option Write :=
  store.find? (fun w => w.wr_id == wr_id)

/-- The reason a deletion request is refused before any mutation. -/
inductive DeleteError where
  | notFound
  | permission
  | replyConflict
  | commentThreshold
  deriving DecidableEq, Repr

/-- Outcome of a post-deletion request: refused with the state unchanged, or
performed. -/
inductive DeleteOutcome where
  | refused (e : DeleteError) (st : State)
  | deleted (st : State)
  deriving DecidableEq, Repr

/-- Modelled from the spec: the router orchestration of `DeletePostService` —
the validations (`validate_level`, `validate_exists_reply`,
`validate_exists_comment`) are evaluated before `delete_write`, and a raised
exception aborts the request with the state unchanged.  `threshold_ok` is the
result of `is_delete_by_comment` (the comment-count threshold check of the
BoardService base class, outside src). -/
def delete_post (bo_table : String) (wr_id : Nat) (member : Member) (wml : Int)
    (with_session has_grant threshold_ok : Bool) (st : State) : DeleteOutcome :=
  match get_write st.writes wr_id with
  | none => .refused .notFound st
  | some write =>
    match validate_level write member wml with_session has_grant with
    | some _ => .refused .permission st
    | none =>
      if exists_reply st.writes write then .refused .replyConflict st
      else if !threshold_ok then .refused .commentThreshold st
      else .deleted (delete_write bo_table wr_id st)

/-! ## Comment deletion engine (`DeleteCommentService`) -/

/-- `DeleteCommentService.delete_comment`: delete the comment row, then
decrement `wr_comment` on the rows whose `wr_id` equals the comment's
`wr_parent`, and commit. -/
def delete_comment (comment : Write) (st : State) : State :=
  { st with
    writes := (st.writes.filter (fun w => !(w.wr_id == comment.wr_id))).map
      (fun w => if w.wr_id == comment.wr_parent then
          { w with wr_comment := w.wr_comment - 1 } else w),
    commits := st.commits + 1 }

/-! ## Bulk deletion engine (`ListDeleteService`) -/

/-- One iteration of the loop of `ListDeleteService.delete_writes`: delete the
row, reverse the authoring ledger entry with reason "쓰기" (for every row,
comment or not), on a missed reversal call
`save_point(write.mb_id, board.bo_write_point * (-1), memo)`, and delete the
row's files.  Point and file calls use `write.wr_id`. -/
def delete_writes_step (bo_table : String) (board : Board)
    (st : State) (w : Write) : State :=
  let st0 := { st with writes := st.writes.filter (fun v => !(v.wr_id == w.wr_id)) }
  let dp := delete_point st0.ledger w.mb_id bo_table w.wr_id "쓰기"
  let st1 := { st0 with
    ledger := dp.2
    deletePointCalls := st0.deletePointCalls ++ [({ mb_id := w.mb_id, bo_table := bo_table, wr_id := w.wr_id, reason := "쓰기" } : LedgerEntry)] }
  let st2 := if !dp.1 then
      { st1 with savePointCalls := st1.savePointCalls ++
          [[Arg.str w.mb_id, Arg.int (board.bo_write_point * (-1)),
            Arg.str (writeMemo board w.wr_id)]] }
    else st1
  { st2 with deletedFiles := st2.deletedFiles ++ [(board.bo_table, w.wr_id)] }

/-- `ListDeleteService.delete_writes`: load the rows whose `wr_id` is in
`wr_ids`, run the deletion loop, commit once after the loop, and invalidate
the `latest-{bo_table}` cache keys. -/
def delete_writes (bo_table : String) (wr_ids : List Nat) (st : State) : State :=
  let board := st.board
  let writes := st.writes.filter (fun w => wr_ids.contains w.wr_id)
  let st1 := writes.foldl (delete_writes_step bo_table board) st
  { st1 with
    commits := st1.commits + 1
    cacheInvalidations := st1.cacheInvalidations ++ ["latest-" ++ bo_table] }

/-! ## Secret-comment redaction (`ListPostService.add_additional_info_to_writes`) -/

/-- Python substring test `pat in s`, used for the option flags
(`"secret" in comment.wr_option`). -/
def strContainsSub (s pat : String) : Bool :=
  s.toList.tails.any (fun t => pat.toList.isPrefixOf t)

/-- The secret-comment redaction of `add_additional_info_to_writes`
(`list_post.py` lines 126 and 133–144): the pair is
`(comment.is_secret_content, comment.save_content)`.  The content is replaced
by the fixed placeholder iff the comment is flagged secret and the viewer is
not an administrator, not the comment's author, not the parent post's author,
and holds no `ss_secret_comment_{bo_table}_{wr_id}` session grant. -/
def secret_display (comment parent_write : Write) (member : Member)
    (has_secret_session : Bool) : Bool × String :=
  let is_secret := strContainsSub comment.wr_option "secret"
  if is_secret && !(member.admin_type != "") && !(is_owner comment member.mb_id)
      && !(is_owner parent_write member.mb_id) && !has_secret_session then
    (true, "비밀글 입니다.")
  else
    (false, comment.wr_content)

/-! ## Concrete example data used by the witnesses -/

/-- A state with no effects logged yet. -/
def mkState (ws : List Write) (b : Board) (bn : List BoardNewEntry)
    (sc : List ScrapEntry) (lg : List LedgerEntry) : State :=
  { writes := ws, board := b, boardNew := bn, scraps := sc, ledger := lg,
    savePointCalls := [], deletePointCalls := [], deletedFiles := [],
    cacheInvalidations := [], commits := 0 }

/-- Example board. -/
def exBoard : Board :=
  { bo_table := "free", bo_subject := "자유", bo_count_write := 10,
    bo_count_comment := 5, bo_notice := [1, 4], bo_write_point := 3,
    bo_comment_point := 1 }

/-- Example top-level post, two live comments. -/
def exPost : Write :=
  { wr_id := 1, wr_parent := 1, wr_is_comment := false, wr_num := -1,
    wr_reply := "", wr_comment := 2, wr_comment_reply := "", mb_id := "bob",
    wr_option := "", wr_content := "첫 글" }

/-- Example secret comment on `exPost`, authored by alice. -/
def exComment : Write :=
  { wr_id := 2, wr_parent := 1, wr_is_comment := true, wr_num := -1,
    wr_reply := "", wr_comment := 0, wr_comment_reply := "A", mb_id := "alice",
    wr_option := "secret", wr_content := "비밀 댓글" }

/-- Example anonymous comment on `exPost`. -/
def exComment2 : Write :=
  { wr_id := 3, wr_parent := 1, wr_is_comment := true, wr_num := -1,
    wr_reply := "", wr_comment := 0, wr_comment_reply := "B", mb_id := "",
    wr_option := "", wr_content := "손님 댓글" }

/-- Example unrelated top-level post. -/
def exOther : Write :=
  { wr_id := 4, wr_parent := 4, wr_is_comment := false, wr_num := -2,
    wr_reply := "", wr_comment := 7, wr_comment_reply := "", mb_id := "carol",
    wr_option := "", wr_content := "둘째 글" }

/-- Example reply post to `exPost` (same `wr_num`, `wr_reply` extended). -/
def exReply : Write :=
  { wr_id := 5, wr_parent := 5, wr_is_comment := false, wr_num := -1,
    wr_reply := "A", wr_comment := 0, wr_comment_reply := "", mb_id := "carol",
    wr_option := "", wr_content := "답변 글" }

/-- Example anonymous top-level post. -/
def exAnon : Write :=
  { wr_id := 6, wr_parent := 6, wr_is_comment := false, wr_num := -3,
    wr_reply := "", wr_comment := 0, wr_comment_reply := "", mb_id := "",
    wr_option := "", wr_content := "손님 글" }

/-- The main example state: one post with two comments, one unrelated post;
bob already has a ledger entry for authoring post 1, the comment authors have
none. -/
def exState : State :=
  mkState [exPost, exComment, exComment2, exOther] exBoard
    [⟨"free", 1, 1⟩, ⟨"free", 2, 1⟩, ⟨"free", 4, 4⟩]
    [⟨"free", 1, "dave"⟩]
    [⟨"bob", "free", 1, "쓰기"⟩]

/-- State for the comment-branch `save_point` evaluation: empty ledger, so
both reversals miss and both compensating calls are made. -/
def exStateC3 : State :=
  mkState [exPost, exComment] exBoard [] [] []

/-- State for the reply-conflict check: the post and a reply post to it. -/
def exStateC5 : State :=
  mkState [exPost, exReply] exBoard [] [] [⟨"bob", "free", 1, "쓰기"⟩]

/-- State for the anonymous-post permission check. -/
def exStateC8 : State :=
  mkState [exAnon] exBoard [] [] []

/-- Superadmin member. -/
def exSuper : Member := { mb_id := "admin", admin_type := "super", level := 10 }

/-- Ordinary non-admin member dave. -/
def exDave : Member := { mb_id := "dave", admin_type := "", level := 2 }

/-- The comment author alice as a viewer. -/
def exAlice : Member := { mb_id := "alice", admin_type := "", level := 1 }

/-- An unrelated non-admin viewer. -/
def exEve : Member := { mb_id := "eve", admin_type := "", level := 1 }

/-- Example search predicate: free text matching only the content of alice's
comment. -/
def exHits : Write → Bool := fun w => w.wr_content == "비밀 댓글"

/-! ## Theorems -/

/-- C2 (corrected): for a positive partition width `W`, the code's window restriction accepts
exactly the closed interval `[spt, spt + W]`; consequently the two
consecutive windows `[spt, spt+W]` and `[spt+W, spt+2W]` overlap exactly at
the boundary point `spt + W`, and together they cover every sequence number
between their bounds. -/
theorem search_window_closed_interval (spt W n : Int) (hW : 0 < W) :
    (wrNumInSearchWindow spt W n = true ↔ spt ≤ n ∧ n ≤ spt + W) ∧
    ((wrNumInSearchWindow spt W n = true ∧ wrNumInSearchWindow (spt + W) W n = true)
      ↔ n = spt + W) ∧
    (spt ≤ n → n ≤ spt + 2 * W →
      wrNumInSearchWindow spt W n = true ∨ wrNumInSearchWindow (spt + W) W n = true) := by
  unfold wrNumInSearchWindow
  simp only [Bool.and_eq_true, decide_eq_true_eq]
  exact ⟨trivial, by constructor <;> intro h <;> omega, by intro h1 h2; omega⟩

/-- Witness for `search_window_closed_interval` at `spt = -20000`, `W = 10000`,
`n = -10000`. -/
theorem search_window_closed_interval_witness :
    (wrNumInSearchWindow (-20000) 10000 (-10000) = true ↔
      (-20000 : Int) ≤ -10000 ∧ (-10000 : Int) ≤ -20000 + 10000) ∧
    ((wrNumInSearchWindow (-20000) 10000 (-10000) = true ∧
      wrNumInSearchWindow (-20000 + 10000) 10000 (-10000) = true) ↔
      (-10000 : Int) = -20000 + 10000) ∧
    ((-20000 : Int) ≤ -10000 → (-10000 : Int) ≤ -20000 + 2 * 10000 →
      wrNumInSearchWindow (-20000) 10000 (-10000) = true ∨
      wrNumInSearchWindow (-20000 + 10000) 10000 (-10000) = true) :=
  search_window_closed_interval (-20000) 10000 (-10000) (by decide)

/-- C2, as stated, is false on the code: the code's window restriction accepts
`wr_num = spt + W`, which the claimed half-open interval `[spt, spt+W)`
excludes, and the two consecutive windows both accept that point, so they
overlap. -/
theorem search_window_not_half_open :
    wrNumInSearchWindow (-20000) 10000 (-10000) = true ∧
    ¬((-20000 : Int) ≤ -10000 ∧ (-10000 : Int) < -20000 + 10000) ∧
    (wrNumInSearchWindow (-20000) 10000 (-10000) = true ∧
     wrNumInSearchWindow (-20000 + 10000) 10000 (-10000) = true) := by decide


/-- C3: evaluation of `delete_write` on a post (bob) with one comment (alice)
and an empty ledger.  Both reversals miss, so both compensating `save_point`
calls are made; the post-branch call passes the author `"bob"` as its first
argument, but the comment-branch call passes the `Request` object first and
the author `"alice"` only second — the comment compensation is not applied to
the author as actor.  The reversal attempts themselves use the distinct
reason tags "쓰기" and "댓글". -/
theorem comment_compensation_passes_request_as_actor :
    (delete_write "free" 1 exStateC3).savePointCalls =
      [[Arg.str "bob", Arg.int (-3), Arg.str "자유 1 글 삭제"],
       [Arg.request, Arg.str "alice", Arg.int (-1), Arg.str "자유 1 댓글 삭제"]] ∧
    (delete_write "free" 1 exStateC3).deletePointCalls =
      [⟨"bob", "free", 1, "쓰기"⟩, ⟨"alice", "free", 1, "댓글"⟩] := by decide

/-- Anonymous rows always fail `validate_level` for a non-admin actor without
a session grant, whichever way `with_session` is set. -/
theorem validate_level_anonymous (write : Write) (member : Member) (wml : Int)
    (ws : Bool) (hanon : write.mb_id = "") (hnadmin : member.admin_type = "") :
    validate_level write member wml ws false = some 403 := by
  unfold validate_level
  rw [hanon, hnadmin]
  cases ws <;> rfl

/-- C8: for an anonymous post (`mb_id` empty) and a non-administrator actor
with no per-post session deletion grant, `delete_post` refuses with
PermissionDenied and returns the state unchanged: no mutation of the post
store, counters, ledger or caches. -/
theorem delete_post_anonymous_denied (bo : String) (wr_id : Nat)
    (member : Member) (wml : Int) (ws tok : Bool) (st : State) (write : Write)
    (hfind : get_write st.writes wr_id = some write)
    (hanon : write.mb_id = "") (hnadmin : member.admin_type = "") :
    delete_post bo wr_id member wml ws false tok st =
      DeleteOutcome.refused DeleteError.permission st := by
  unfold delete_post
  rw [hfind]
  dsimp only
  rw [validate_level_anonymous write member wml ws hanon hnadmin]

/-- Witness for `delete_post_anonymous_denied`: dave (no admin type, no grant)
cannot delete the anonymous post 6. -/
theorem delete_post_anonymous_denied_witness :
    delete_post "free" 6 exDave 1 true false true exStateC8 =
      DeleteOutcome.refused DeleteError.permission exStateC8 :=
  delete_post_anonymous_denied "free" 6 exDave 1 true true exStateC8 exAnon
    (by decide) (by decide) (by decide)

/-- C5: if the target post exists, the actor passes the level check, and a
reply post exists (`validate_exists_reply` fires), `delete_post` refuses with
the "delete replies first" conflict and returns the state unchanged: board
counters, ledger, post store and caches are untouched. -/
theorem delete_post_reply_conflict (bo : String) (wr_id : Nat)
    (member : Member) (wml : Int) (ws hg tok : Bool) (st : State) (write : Write)
    (hfind : get_write st.writes wr_id = some write)
    (hlevel : validate_level write member wml ws hg = none)
    (hreply : exists_reply st.writes write = true) :
    delete_post bo wr_id member wml ws hg tok st =
      DeleteOutcome.refused DeleteError.replyConflict st := by
  unfold delete_post
  rw [hfind]
  dsimp only
  rw [hlevel]
  simp [hreply]

/-- Witness for `delete_post_reply_conflict`: even the superadmin cannot
delete post 1 while the reply post 5 exists, and the state is unchanged. -/
theorem delete_post_reply_conflict_witness :
    delete_post "free" 1 exSuper 1 true false true exStateC5 =
      DeleteOutcome.refused DeleteError.replyConflict exStateC5 :=
  delete_post_reply_conflict "free" 1 exSuper 1 true false true exStateC5 exPost
    (by decide) (by decide) (by decide)

/-- C6: a comment flagged secret is replaced by the fixed placeholder exactly
for viewers who are not an administrator, not the comment's author, not the
parent post's author, and hold no per-comment session grant; any viewer
satisfying one of those conditions sees the real content. -/
theorem secret_comment_redaction (comment parent_write : Write)
    (member : Member) (grant : Bool)
    (hsecret : strContainsSub comment.wr_option "secret" = true) :
    (member.admin_type = "" → is_owner comment member.mb_id = false →
      is_owner parent_write member.mb_id = false → grant = false →
      secret_display comment parent_write member grant = (true, "비밀글 입니다.")) ∧
    ((member.admin_type ≠ "" ∨ is_owner comment member.mb_id = true ∨
      is_owner parent_write member.mb_id = true ∨ grant = true) →
      secret_display comment parent_write member grant =
        (false, comment.wr_content)) := by
  unfold secret_display
  constructor
  · intro h1 h2 h3 h4
    simp [hsecret, h1, h2, h3, h4]
  · intro h
    rcases h with h | h | h | h <;> simp [hsecret, h]

/-- Witness for `secret_comment_redaction`: the stranger eve sees the
placeholder on alice's secret comment, while the author alice sees the real
content. -/
theorem secret_comment_redaction_witness :
    secret_display exComment exPost exEve false = (true, "비밀글 입니다.") ∧
    secret_display exComment exPost exAlice false = (false, exComment.wr_content) :=
  ⟨(secret_comment_redaction exComment exPost exEve false (by decide)).1
      (by decide) (by decide) (by decide) rfl,
   (secret_comment_redaction exComment exPost exAlice false (by decide)).2
      (Or.inr (Or.inl (by decide)))⟩

/-- C7: a successful `delete_comment` on comment C removes the comment row,
replaces every surviving row whose id equals `C.wr_parent` by the same row
with `wr_comment` decremented by exactly 1, and leaves every other surviving
row (in particular its comment counter) unchanged; every row of the result is
accounted for in this way. -/
theorem delete_comment_decrements_parent_only (st : State) (c : Write)
    (_hcc : c.wr_is_comment = true) (hne : c.wr_parent ≠ c.wr_id) :
    (∀ p ∈ st.writes, p.wr_id = c.wr_parent →
      { p with wr_comment := p.wr_comment - 1 } ∈ (delete_comment c st).writes) ∧
    (∀ w ∈ st.writes, w.wr_id ≠ c.wr_id → w.wr_id ≠ c.wr_parent →
      w ∈ (delete_comment c st).writes) ∧
    (∀ v ∈ (delete_comment c st).writes,
      (v.wr_id ≠ c.wr_parent → v ∈ st.writes) ∧
      (v.wr_id = c.wr_parent →
        ∃ p ∈ st.writes, p.wr_id = c.wr_parent ∧
          v = { p with wr_comment := p.wr_comment - 1 })) := by
  unfold delete_comment
  dsimp only
  refine ⟨?_, ?_, ?_⟩
  · intro p hp hpid
    apply List.mem_map.mpr
    refine ⟨p, List.mem_filter.mpr ⟨hp, ?_⟩, ?_⟩
    · simp only [Bool.not_eq_eq_eq_not, Bool.not_true, beq_eq_false_iff_ne, ne_eq]
      rw [hpid]
      exact fun h => hne h
    · rw [if_pos (beq_iff_eq.mpr hpid)]
  · intro w hw hw1 hw2
    apply List.mem_map.mpr
    refine ⟨w, List.mem_filter.mpr ⟨hw, ?_⟩, ?_⟩
    · simp only [Bool.not_eq_eq_eq_not, Bool.not_true, beq_eq_false_iff_ne, ne_eq]
      exact hw1
    · rw [if_neg (by simpa using hw2)]
  · intro v hv
    obtain ⟨w, hwmem, hweq⟩ := List.mem_map.mp hv
    have hw : w ∈ st.writes := (List.mem_filter.mp hwmem).1
    by_cases hcond : w.wr_id = c.wr_parent
    · rw [if_pos (beq_iff_eq.mpr hcond)] at hweq
      subst hweq
      constructor
      · intro hvne; exact absurd hcond hvne
      · intro _; exact ⟨w, hw, hcond, rfl⟩
    · rw [if_neg (by simpa using hcond)] at hweq
      subst hweq
      constructor
      · intro _; exact hw
      · intro hvid; exact absurd hvid hcond

/-- Witness for `delete_comment_decrements_parent_only`: deleting alice's
comment 2 yields post 1 with its counter decremented from 2 to 1, while the
unrelated post 4 is unchanged. -/
theorem delete_comment_decrements_parent_only_witness :
    { exPost with wr_comment := exPost.wr_comment - 1 } ∈
      (delete_comment exComment exState).writes ∧
    exOther ∈ (delete_comment exComment exState).writes :=
  ⟨(delete_comment_decrements_parent_only exState exComment (by decide) (by decide)).1
      exPost (by decide) (by decide),
   (delete_comment_decrements_parent_only exState exComment (by decide) (by decide)).2.1
      exOther (by decide) (by decide) (by decide)⟩

/-- The loop body of `delete_writes` leaves the board aggregate (notice list
and both counters), the recency index and the scraps untouched, and does not
commit. -/
theorem delete_writes_step_frame (bo : String) (b : Board) (st : State) (w : Write) :
    (delete_writes_step bo b st w).board = st.board ∧
    (delete_writes_step bo b st w).boardNew = st.boardNew ∧
    (delete_writes_step bo b st w).scraps = st.scraps ∧
    (delete_writes_step bo b st w).commits = st.commits ∧
    (delete_writes_step bo b st w).cacheInvalidations = st.cacheInvalidations := by
  unfold delete_writes_step
  dsimp only
  split <;> exact ⟨rfl, rfl, rfl, rfl, rfl⟩

/-- The loop body of `delete_writes` removes exactly the rows with the
processed row's id. -/
theorem delete_writes_step_writes (bo : String) (b : Board) (st : State) (w : Write) :
    (delete_writes_step bo b st w).writes =
      st.writes.filter (fun v => !(v.wr_id == w.wr_id)) := by
  unfold delete_writes_step
  dsimp only
  split <;> rfl

/-- The loop body of `delete_writes` issues exactly one `delete_point` call,
with the post-authoring reason tag "쓰기". -/
theorem delete_writes_step_dpc (bo : String) (b : Board) (st : State) (w : Write) :
    (delete_writes_step bo b st w).deletePointCalls =
      st.deletePointCalls ++ [⟨w.mb_id, bo, w.wr_id, "쓰기"⟩] := by
  unfold delete_writes_step
  dsimp only
  split <;> rfl

/-- Frame of the whole `delete_writes` loop. -/
theorem delete_writes_fold_frame (bo : String) (b : Board) (ws : List Write) :
    ∀ st : State,
      (ws.foldl (delete_writes_step bo b) st).board = st.board ∧
      (ws.foldl (delete_writes_step bo b) st).boardNew = st.boardNew ∧
      (ws.foldl (delete_writes_step bo b) st).scraps = st.scraps ∧
      (ws.foldl (delete_writes_step bo b) st).commits = st.commits ∧
      (ws.foldl (delete_writes_step bo b) st).cacheInvalidations =
        st.cacheInvalidations := by
  induction ws with
  | nil => intro st; exact ⟨rfl, rfl, rfl, rfl, rfl⟩
  | cons w ws ih =>
    intro st
    rw [List.foldl_cons]
    have h1 := delete_writes_step_frame bo b st w
    have h2 := ih (delete_writes_step bo b st w)
    exact ⟨h2.1.trans h1.1, h2.2.1.trans h1.2.1, h2.2.2.1.trans h1.2.2.1,
           h2.2.2.2.1.trans h1.2.2.2.1, h2.2.2.2.2.trans h1.2.2.2.2⟩

/-- The `delete_writes` loop issues one "쓰기" `delete_point` call per loaded
row, in order. -/
theorem delete_writes_fold_dpc (bo : String) (b : Board) (ws : List Write) :
    ∀ st : State,
      (ws.foldl (delete_writes_step bo b) st).deletePointCalls =
        st.deletePointCalls ++
          ws.map (fun w => ⟨w.mb_id, bo, w.wr_id, "쓰기"⟩) := by
  induction ws with
  | nil => intro st; simp
  | cons w ws ih =>
    intro st
    rw [List.foldl_cons, ih, delete_writes_step_dpc, List.map_cons,
        List.append_assoc, List.singleton_append]

/-- The `delete_writes` loop removes exactly the rows whose id occurs among
the processed rows. -/
theorem delete_writes_fold_writes (bo : String) (b : Board) (ws : List Write) :
    ∀ st : State,
      (ws.foldl (delete_writes_step bo b) st).writes =
        st.writes.filter (fun v => ws.all (fun w => !(v.wr_id == w.wr_id))) := by
  induction ws with
  | nil =>
    intro st
    simp
  | cons w ws ih =>
    intro st
    rw [List.foldl_cons, ih, delete_writes_step_writes, List.filter_filter]
    apply List.filter_congr
    intro v _
    simp only [List.all_cons]
    rw [Bool.and_comm]

/-- A surviving row avoids every loaded row's id exactly when its own id is
not among the requested ids. -/
theorem loaded_all_ne (wr_ids : List Nat) (l : List Write) (v : Write) (hv : v ∈ l) :
    ((l.filter (fun w => wr_ids.contains w.wr_id)).all
      (fun w => !(v.wr_id == w.wr_id))) = !(wr_ids.contains v.wr_id) := by
  cases h : wr_ids.contains v.wr_id
  · apply List.all_eq_true.mpr
    intro w hw
    have hwc := (List.mem_filter.mp hw).2
    simp only [Bool.not_eq_true', beq_eq_false_iff_ne, ne_eq]
    intro heq
    rw [heq] at h
    rw [hwc] at h
    cases h
  · apply List.all_eq_false.mpr
    refine ⟨v, List.mem_filter.mpr ⟨hv, h⟩, ?_⟩
    simp

/-- C9: for every requested id set, `ListDeleteService.delete_writes` leaves
the board aggregate (post/comment counters and notice flags), the recency
index and the scraps unchanged; every surviving row is an unmodified original
row (so no parent's `wr_comment` is updated); it attempts the ledger reversal
with the post-authoring reason tag "쓰기" for every loaded row, comment or
not; it commits exactly once after the loop and then invalidates the board's
latest-cache prefix. -/
theorem delete_writes_bulk_frame (bo : String) (wr_ids : List Nat) (st : State) :
    (delete_writes bo wr_ids st).board = st.board ∧
    (delete_writes bo wr_ids st).boardNew = st.boardNew ∧
    (delete_writes bo wr_ids st).scraps = st.scraps ∧
    (∀ v ∈ (delete_writes bo wr_ids st).writes, v ∈ st.writes) ∧
    (delete_writes bo wr_ids st).deletePointCalls =
      st.deletePointCalls ++
        (st.writes.filter (fun w => wr_ids.contains w.wr_id)).map
          (fun w => ⟨w.mb_id, bo, w.wr_id, "쓰기"⟩) ∧
    (delete_writes bo wr_ids st).commits = st.commits + 1 ∧
    (delete_writes bo wr_ids st).cacheInvalidations =
      st.cacheInvalidations ++ ["latest-" ++ bo] := by
  unfold delete_writes
  dsimp only
  have hframe := delete_writes_fold_frame bo st.board
    (st.writes.filter (fun w => wr_ids.contains w.wr_id)) st
  refine ⟨hframe.1, hframe.2.1, hframe.2.2.1, ?_, ?_, ?_, ?_⟩
  · intro v hv
    rw [delete_writes_fold_writes] at hv
    exact (List.mem_filter.mp hv).1
  · rw [delete_writes_fold_dpc]
  · rw [hframe.2.2.2.1]
  · rw [hframe.2.2.2.2]

/-- C10: `ListDeleteService.delete_writes` performs no existence check:
requested ids with no matching row are silently ignored — the resulting store
is exactly the original store minus the rows whose id occurs in the request —
and the operation still commits exactly once and invalidates the board's
latest-cache prefix, even when no requested id matches any row. -/
theorem delete_writes_ignores_missing_ids (bo : String) (wr_ids : List Nat)
    (st : State) :
    (delete_writes bo wr_ids st).writes =
      st.writes.filter (fun v => !(wr_ids.contains v.wr_id)) ∧
    (delete_writes bo wr_ids st).commits = st.commits + 1 ∧
    (delete_writes bo wr_ids st).cacheInvalidations =
      st.cacheInvalidations ++ ["latest-" ++ bo] := by
  unfold delete_writes
  dsimp only
  have hframe := delete_writes_fold_frame bo st.board
    (st.writes.filter (fun w => wr_ids.contains w.wr_id)) st
  refine ⟨?_, ?_, ?_⟩
  · rw [delete_writes_fold_writes]
    apply List.filter_congr
    intro v hv
    exact loaded_all_ne wr_ids st.writes v hv
  · rw [hframe.2.2.2.1]
  · rw [hframe.2.2.2.2]

/-- C4: under the threading invariant that every row referenced as a parent
is a top-level (non-comment) row, the result set of an active search contains
only non-comment rows — the query returns the rows whose id occurs among the
distinct `wr_parent` values of the matching rows — and whenever a comment
matches the search inside the window, its top-level parent post is in the
result set. -/
theorem search_returns_parent_posts (hits : Write → Bool) (spt W : Int)
    (store : List Write)
    (hparents : ∀ m ∈ store, ∀ p ∈ store, p.wr_id = m.wr_parent →
      p.wr_is_comment = false) :
    (∀ w ∈ search_result hits spt W store, w.wr_is_comment = false) ∧
    (∀ c ∈ store, c.wr_is_comment = true → hits c = true →
      wrNumInSearchWindow spt W c.wr_num = true →
      ∀ p ∈ store, p.wr_id = c.wr_parent →
        p ∈ search_result hits spt W store) := by
  constructor
  · intro w hw
    obtain ⟨hwmem, hwc⟩ := List.mem_filter.mp hw
    have hmem : w.wr_id ∈ search_parent_ids hits spt W store := by
      simpa using hwc
    unfold search_parent_ids at hmem
    rw [List.mem_dedup] at hmem
    obtain ⟨m, hm, hmp⟩ := List.mem_map.mp hmem
    have hmmem := (List.mem_filter.mp hm).1
    exact hparents m hmmem w hwmem hmp.symm
  · intro c hc hcc hhit hwin p hp hpid
    apply List.mem_filter.mpr
    refine ⟨hp, ?_⟩
    have hmem : p.wr_id ∈ search_parent_ids hits spt W store := by
      unfold search_parent_ids
      rw [List.mem_dedup]
      apply List.mem_map.mpr
      refine ⟨c, List.mem_filter.mpr ⟨hc, ?_⟩, hpid.symm⟩
      rw [hhit, hwin]
      rfl
    simpa using hmem

/-- Witness for `search_returns_parent_posts`: searching the text that only
alice's comment contains returns the parent post 1, and the result set holds
no comment rows. -/
theorem search_returns_parent_posts_witness :
    exPost ∈ search_result exHits (-10000) 10000 exState.writes ∧
    ∀ w ∈ search_result exHits (-10000) 10000 exState.writes,
      w.wr_is_comment = false :=
  ⟨(search_returns_parent_posts exHits (-10000) 10000 exState.writes (by decide)).2
      exComment (by decide) (by decide) (by decide) (by decide) exPost
      (by decide) (by decide),
   (search_returns_parent_posts exHits (-10000) 10000 exState.writes (by decide)).1⟩

/-- The loop body of `delete_write` touches only the ledger and the effect
logs: write rows, board aggregate, recency index, scraps, commit count and
cache are unchanged. -/
theorem delete_write_step_frame (bo : String) (wr : Nat) (b : Board)
    (acc : State × Nat × Nat) (w : Write) :
    ((delete_write_step bo wr b acc w).1).writes = acc.1.writes ∧
    ((delete_write_step bo wr b acc w).1).board = acc.1.board ∧
    ((delete_write_step bo wr b acc w).1).boardNew = acc.1.boardNew ∧
    ((delete_write_step bo wr b acc w).1).scraps = acc.1.scraps ∧
    ((delete_write_step bo wr b acc w).1).commits = acc.1.commits ∧
    ((delete_write_step bo wr b acc w).1).cacheInvalidations =
      acc.1.cacheInvalidations := by
  unfold delete_write_step
  dsimp only
  split
  · split <;> exact ⟨rfl, rfl, rfl, rfl, rfl, rfl⟩
  · split <;> exact ⟨rfl, rfl, rfl, rfl, rfl, rfl⟩

/-- The loop body of `delete_write` increments `delete_write_count` on
non-comment rows and `delete_comment_count` on comment rows. -/
theorem delete_write_step_counts (bo : String) (wr : Nat) (b : Board)
    (acc : State × Nat × Nat) (w : Write) :
    (delete_write_step bo wr b acc w).2.1 =
      acc.2.1 + (if w.wr_is_comment then 0 else 1) ∧
    (delete_write_step bo wr b acc w).2.2 =
      acc.2.2 + (if w.wr_is_comment then 1 else 0) := by
  unfold delete_write_step
  cases h : w.wr_is_comment <;> simp [h]

/-- Frame of the whole `delete_write` loop. -/
theorem delete_write_fold_frame (bo : String) (wr : Nat) (b : Board)
    (ws : List Write) :
    ∀ acc : State × Nat × Nat,
      ((ws.foldl (delete_write_step bo wr b) acc).1).writes = acc.1.writes ∧
      ((ws.foldl (delete_write_step bo wr b) acc).1).board = acc.1.board ∧
      ((ws.foldl (delete_write_step bo wr b) acc).1).boardNew = acc.1.boardNew ∧
      ((ws.foldl (delete_write_step bo wr b) acc).1).scraps = acc.1.scraps ∧
      ((ws.foldl (delete_write_step bo wr b) acc).1).commits = acc.1.commits ∧
      ((ws.foldl (delete_write_step bo wr b) acc).1).cacheInvalidations =
        acc.1.cacheInvalidations := by
  induction ws with
  | nil => intro acc; exact ⟨rfl, rfl, rfl, rfl, rfl, rfl⟩
  | cons w ws ih =>
    intro acc
    rw [List.foldl_cons]
    have h1 := delete_write_step_frame bo wr b acc w
    have h2 := ih (delete_write_step bo wr b acc w)
    exact ⟨h2.1.trans h1.1, h2.2.1.trans h1.2.1, h2.2.2.1.trans h1.2.2.1,
           h2.2.2.2.1.trans h1.2.2.2.1, h2.2.2.2.2.1.trans h1.2.2.2.2.1,
           h2.2.2.2.2.2.trans h1.2.2.2.2.2⟩

/-- The `delete_write` loop accumulates exactly the number of non-comment
rows in `delete_write_count` and of comment rows in `delete_comment_count`. -/
theorem delete_write_fold_counts (bo : String) (wr : Nat) (b : Board)
    (ws : List Write) :
    ∀ acc : State × Nat × Nat,
      (ws.foldl (delete_write_step bo wr b) acc).2.1 =
        acc.2.1 + ws.countP (fun w => !w.wr_is_comment) ∧
      (ws.foldl (delete_write_step bo wr b) acc).2.2 =
        acc.2.2 + ws.countP (fun w => w.wr_is_comment) := by
  induction ws with
  | nil => intro acc; simp
  | cons w ws ih =>
    intro acc
    rw [List.foldl_cons]
    have h1 := delete_write_step_counts bo wr b acc w
    have h2 := ih (delete_write_step bo wr b acc w)
    rw [List.countP_cons, List.countP_cons]
    constructor
    · rw [h2.1, h1.1]
      cases h : w.wr_is_comment <;> (simp [h]; try omega)
    · rw [h2.2, h1.2]
      cases h : w.wr_is_comment <;> (simp [h]; try omega)

/-- Inserting preserves `countP`. -/
theorem countP_insertByWrId (p : Write → Bool) (w : Write) (l : List Write) :
    (insertByWrId w l).countP p = (w :: l).countP p := by
  induction l with
  | nil => rfl
  | cons v vs ih =>
    unfold insertByWrId
    split
    · rfl
    · simp only [List.countP_cons, ih]
      omega

/-- Sorting by `wr_id` preserves `countP`. -/
theorem countP_sortByWrId (p : Write → Bool) (l : List Write) :
    (sortByWrId l).countP p = l.countP p := by
  induction l with
  | nil => rfl
  | cons w ws ih =>
    unfold sortByWrId
    rw [countP_insertByWrId, List.countP_cons, List.countP_cons, ih]

/-- In a store with pairwise-distinct ids, a filter whose every match shares
one fixed id and which has at least one match selects exactly one row. -/
theorem filter_length_one_of_same_id (l : List Write) (q : Write → Bool)
    (x : Write) (hx : x ∈ l) (hqx : q x = true)
    (huniq : l.Pairwise (fun a b => a.wr_id ≠ b.wr_id))
    (hsame : ∀ y ∈ l, q y = true → y.wr_id = x.wr_id) :
    (l.filter q).length = 1 := by
  have hxf : x ∈ l.filter q := List.mem_filter.mpr ⟨hx, hqx⟩
  have hpf : (l.filter q).Pairwise (fun a b => a.wr_id ≠ b.wr_id) :=
    List.Pairwise.sublist (List.filter_sublist l) huniq
  cases hf : l.filter q with
  | nil => rw [hf] at hxf; cases hxf
  | cons a tail =>
    cases tail with
    | nil => rfl
    | cons b rest =>
      exfalso
      rw [hf] at hpf
      have ha : a ∈ l.filter q := by
        rw [hf]; exact List.mem_cons_self a _
      have hb : b ∈ l.filter q := by
        rw [hf]; exact List.mem_cons_of_mem a (List.mem_cons_self b _)
      have h1 := hsame a (List.mem_filter.mp ha).1 (List.mem_filter.mp ha).2
      have h2 := hsame b (List.mem_filter.mp hb).1 (List.mem_filter.mp hb).2
      have hab := (List.pairwise_cons.mp hpf).1 b (List.mem_cons_self b _)
      exact hab (h1.trans h2.symm)

/-- C1: for a top-level post P whose non-comment children are only P itself
(ids are unique in the store; comments carry `wr_parent = P.wr_id`),
`delete_write` decrements the board's post counter by exactly 1 and the
comment counter by exactly the number of live comments of P, and afterwards
no row with `wr_parent = P.wr_id` remains in the store. -/
theorem delete_write_cascade_counters (bo : String) (st : State) (P : Write)
    (hP : P ∈ st.writes) (hpar : P.wr_parent = P.wr_id)
    (hnc : P.wr_is_comment = false)
    (huniq : st.writes.Pairwise (fun a b => a.wr_id ≠ b.wr_id))
    (hchild : ∀ w ∈ st.writes, w.wr_parent = P.wr_id → w.wr_is_comment = false →
      w.wr_id = P.wr_id) :
    (delete_write bo P.wr_id st).board.bo_count_write =
      st.board.bo_count_write - 1 ∧
    (delete_write bo P.wr_id st).board.bo_count_comment =
      st.board.bo_count_comment -
        ((st.writes.countP
            (fun w => w.wr_is_comment && w.wr_parent == P.wr_id)) : Int) ∧
    ∀ w ∈ (delete_write bo P.wr_id st).writes, ¬(w.wr_parent = P.wr_id) := by
  have hcounts := delete_write_fold_counts bo P.wr_id st.board
    (sortByWrId (st.writes.filter (fun w => w.wr_parent == P.wr_id))) (st, 0, 0)
  have hwc : (sortByWrId (st.writes.filter
      (fun w => w.wr_parent == P.wr_id))).countP
        (fun w => !w.wr_is_comment) = 1 := by
    rw [countP_sortByWrId, List.countP_filter, List.countP_eq_length_filter]
    refine filter_length_one_of_same_id st.writes _ P hP ?_ huniq ?_
    · simp [hnc, hpar]
    · intro y hy hqy
      simp only [Bool.and_eq_true, Bool.not_eq_true', beq_iff_eq] at hqy
      exact hchild y hy hqy.2 hqy.1
  have hcc : (sortByWrId (st.writes.filter
      (fun w => w.wr_parent == P.wr_id))).countP (fun w => w.wr_is_comment) =
      st.writes.countP (fun w => w.wr_is_comment && w.wr_parent == P.wr_id) := by
    rw [countP_sortByWrId, List.countP_filter]
  unfold delete_write
  dsimp only
  refine ⟨?_, ?_, ?_⟩
  · rw [hcounts.1, hwc]
    norm_num
  · rw [hcounts.2, hcc]
    norm_num
  · intro w hw
    have hb := (List.mem_filter.mp hw).2
    simpa using hb

/-- Witness for `delete_write_cascade_counters`: deleting post 1 (two live
comments) on the example state drops the post counter by 1 and the comment
counter by 2, and removes every row with parent 1. -/
theorem delete_write_cascade_counters_witness :
    (delete_write "free" exPost.wr_id exState).board.bo_count_write =
      exState.board.bo_count_write - 1 ∧
    (delete_write "free" exPost.wr_id exState).board.bo_count_comment =
      exState.board.bo_count_comment -
        ((exState.writes.countP
            (fun w => w.wr_is_comment && w.wr_parent == exPost.wr_id)) : Int) ∧
    ∀ w ∈ (delete_write "free" exPost.wr_id exState).writes,
      ¬(w.wr_parent = exPost.wr_id) :=
  delete_write_cascade_counters "free" exState exPost (by decide) (by decide)
    (by decide) (by decide) (by decide)
